import Mathlib

/-!
Shallow embedding of the data reconciliation and normalization layer of
`duke_nba_email.py`: retry policy (`with_retries`), schema reconciliation
(`pick_col`), the school cache (`get_player_school`, `is_duke_player`),
the box-score collector (`get_duke_boxscores`), rendering and delivery
(`email_html`, `send_email_table_only`), together with theorems settling
the specification claims about them.
-/

namespace DukeNba

/- ---------------- STRING PRIMITIVES ----------------
Structural models of the Python string methods the source uses
(`str.lower`, `str.strip`, `int(str)`), defined over the character list of
the string so that concrete instances evaluate inside the kernel. -/

/-- Python `s.lower()` (the source only lowercases ASCII column names). -/
def strLower (s : String) : String :=
⟨s.data.map Char.toLower⟩

/-- Python `s.strip()`: remove leading and trailing whitespace. -/
def strTrim (s : String) : String :=
⟨(((s.data.dropWhile Char.isWhitespace).reverse).dropWhile Char.isWhitespace).reverse⟩

/-- Digit-string accumulator for `int(str)`. -/
def parseDigitsAux (acc : Nat) : List Char → Option Nat
| [] => some acc
| c :: cs => if c.isDigit then parseDigitsAux (acc * 10 + (c.toNat - 48)) cs else none

/-- Python `int(str)`: optional sign followed by at least one digit;
anything else raises (modelled as `none`). -/
def str_toInt (s : String) : Option Int :=
match s.data with
| [] => none
| c :: cs =>
  if c = '-' then
    match cs with
    | [] => none
    | _ => (parseDigitsAux 0 cs).map (fun n => -(n : Int))
  else if c = '+' then
    match cs with
    | [] => none
    | _ => (parseDigitsAux 0 cs).map (fun n => (n : Int))
  else (parseDigitsAux 0 (c :: cs)).map (fun n => (n : Int))

/-- A value held in one cell of an upstream data-frame row: Python `None`,
a float NaN, an integer, or a string. -/
inductive Cell where
| null : Cell
| nan : Cell
| intV : Int → Cell
| strV : String → Cell
deriving DecidableEq

/-- `as_int` from the source: `None`/NaN coerce to 0, integers pass through,
strings are parsed, and any parse failure yields 0 (the `except` branch). -/
def as_int : Cell → Int
| Cell.null => 0
| Cell.nan => 0
| Cell.intV n => n
| Cell.strV s => (str_toInt s).getD 0

/-- `as_str` from the source: `None`/NaN coerce to the empty string, other
values to their string form. -/
def as_str : Cell → String
| Cell.null => ""
| Cell.nan => ""
| Cell.intV n => toString n
| Cell.strV s => s

/-- One raw row of an upstream table: named cells. -/
abbrev RawRow := List (String × Cell)

/-- Reading `p[col]` from a row. -/
def getCell (p : RawRow) (col : String) : Cell :=
match List.find? (fun q => q.1 = col) p with
| some q => q.2
| none => Cell.null

/-- The `player_stats` data frame of one game (`BoxScoreTraditionalV3`). -/
structure BoxScore where
cols : List String
rows : List RawRow
deriving DecidableEq

/-- One game-header row of the scoreboard: game id, home and away team ids. -/
structure Game where
gameId : String
homeTeamId : Int
awayTeamId : Int
deriving DecidableEq

/- ---------------- SCHEMA HELPERS ---------------- -/

/-- The `lower_map` dict comprehension `{c.lower(): c for c in cols}`:
a later column overwrites an earlier one sharing the same lowercase. -/
def lowerLookup (cols : List String) (key : String) : Option String :=
cols.foldl (fun acc c => if strLower c = key then some c else acc) none

/-- `pick_col` from the source: first candidate that is an exact column name;
otherwise the first candidate whose lowercase form appears in `lower_map`;
otherwise `none`. -/
def pick_col (cols : List String) (candidates : List String) : Option String :=
match candidates.find? (fun c => cols.contains c) with
| some c => some c
| none =>
  match candidates.find? (fun c => (lowerLookup cols (strLower c)).isSome) with
  | some c => lowerLookup cols (strLower c)
  | none => none

/- Candidate lists, verbatim from the source. -/

def teamIdCands : List String := ["TEAM_ID", "teamId", "TEAMID"]
def teamAbbrCands : List String := ["TEAM_ABBREVIATION", "teamTricode", "TEAM_TRICODE", "TEAM_ABBR"]
def pidCands : List String := ["PLAYER_ID", "personId", "PERSON_ID"]
def firstCands : List String := ["PLAYER_FIRST_NAME", "firstName", "FIRST_NAME"]
def lastCands : List String := ["PLAYER_LAST_NAME", "familyName", "LAST_NAME"]
def minCands : List String := ["MIN", "minutes", "MINUTES"]
def ptsCands : List String := ["PTS", "points"]
def orebCands : List String := ["OREB", "offReb", "offensiveRebounds", "REB_OFF"]
def drebCands : List String := ["DREB", "defReb", "defensiveRebounds", "REB_DEF"]
def rebCands : List String := ["REB", "reboundsTotal", "reb"]
def astCands : List String := ["AST", "assists", "ast"]
def stlCands : List String := ["STL", "steals", "stl"]
def blkCands : List String := ["BLK", "blocks", "blk"]
def tovCands : List String := ["TO", "TOV", "turnovers", "to"]
def fgmCands : List String := ["FGM", "fieldGoalsMade"]
def fgaCands : List String := ["FGA", "fieldGoalsAttempted"]
def fg3mCands : List String := ["FG3M", "threePointersMade"]
def fg3aCands : List String := ["FG3A", "threePointersAttempted"]
def ftmCands : List String := ["FTM", "freeThrowsMade"]
def ftaCands : List String := ["FTA", "freeThrowsAttempted"]
def pmCands : List String := ["PLUS_MINUS", "plusMinusPoints", "PLUSMINUS"]

/-- The resolved column names of one box score, as computed inside
`get_duke_boxscores`; the game is skipped (`continue`) when the team
columns or the player-id column are unresolvable. -/
structure Cols where
tidCol : String
tabCol : String
pidCol : String
firstCol : Option String
lastCol : Option String
minCol : Option String
ptsCol : Option String
orebCol : Option String
drebCol : Option String
rebCol : Option String
astCol : Option String
stlCol : Option String
blkCol : Option String
tovCol : Option String
fgmCol : Option String
fgaCol : Option String
fg3mCol : Option String
fg3aCol : Option String
ftmCol : Option String
ftaCol : Option String
pmCol : Option String

/-- The column-resolution phase of `get_duke_boxscores`. -/
def resolveCols (cols : List String) : Option Cols :=
match pick_col cols teamIdCands, pick_col cols teamAbbrCands with
| some tid, some tab =>
  match pick_col cols pidCands with
  | some pid =>
    some
      { tidCol := tid
        tabCol := tab
        pidCol := pid
        firstCol := pick_col cols firstCands
        lastCol := pick_col cols lastCands
        minCol := pick_col cols minCands
        ptsCol := pick_col cols ptsCands
        orebCol := pick_col cols orebCands
        drebCol := pick_col cols drebCands
        rebCol := pick_col cols rebCands
        astCol := pick_col cols astCands
        stlCol := pick_col cols stlCands
        blkCol := pick_col cols blkCands
        tovCol := pick_col cols tovCands
        fgmCol := pick_col cols fgmCands
        fgaCol := pick_col cols fgaCands
        fg3mCol := pick_col cols fg3mCands
        fg3aCol := pick_col cols fg3aCands
        ftmCol := pick_col cols ftmCands
        ftaCol := pick_col cols ftaCands
        pmCol := pick_col cols pmCands }
  | none => none
| _, _ => none

/- ---------------- TEAM ABBREVIATION MAP ---------------- -/

/-- `dropna` test on one cell: `None` and NaN are dropped by pandas. -/
def isNaCell : Cell → Bool
| Cell.null => true
| Cell.nan => true
| _ => false

/-- `drop_duplicates`: keep the first occurrence of each (id, abbr) pair. -/
def dedupPairs (seen : List (Cell × Cell)) : List (Cell × Cell) → List (Cell × Cell)
| [] => []
| q :: rest =>
  if seen.contains q then dedupPairs seen rest
  else q :: dedupPairs (seen ++ [q]) rest

/-- `set_index(...)[...].to_dict()` lookup: entries written in order, a later
entry with the same key overwrites an earlier one. -/
def toDict (ps : List (Cell × Cell)) (k : Cell) : Option Cell :=
ps.foldl (fun acc q => if q.1 = k then some q.2 else acc) none

/-- The per-game `team_abbr_map` built from the box score's own rows:
select the two team columns, drop NA rows, drop duplicate pairs. -/
def buildTeamMap (bs : BoxScore) (tidCol tabCol : String) : List (Cell × Cell) :=
dedupPairs [] (bs.rows.filterMap (fun r =>
  let a := getCell r tidCol
  let b := getCell r tabCol
  if isNaCell a || isNaCell b then none else some (a, b)))

/-- `team_abbr_map.get(opp_team_id, "UNK")`. -/
def mapGetD (ps : List (Cell × Cell)) (k : Int) (dflt : Cell) : Cell :=
(toDict ps (Cell.intV k)).getD dflt

/- ---------------- NORMALIZED ROW ---------------- -/

/-- The normalized output row built inside the per-player loop (the `row`
dict of the source, fields in source order). The opponent field keeps the
raw cell taken from `team_abbr_map` (the source stores it unconverted). -/
structure NormRow where
player : String
team : String
opponent : Cell
minPlayed : String
pts : Int
oreb : Int
dreb : Int
reb : Int
ast : Int
stl : Int
blk : Int
tov : Int
fg : String
threeP : String
ft : String
plusMinus : String
deriving DecidableEq

/-- `as_int(p[c]) if c else 0`. -/
def optInt (p : RawRow) (oc : Option String) : Int :=
match oc with
| some c => as_int (getCell p c)
| none => 0

/-- `as_str(p[c]) if c else ""`. -/
def optStr (p : RawRow) (oc : Option String) : String :=
match oc with
| some c => as_str (getCell p c)
| none => ""

/-- Building one normalized row from a raw box-score row (the body of the
per-player loop after the tracked-player filter). -/
def buildRow (g : Game) (m : List (Cell × Cell)) (c : Cols) (p : RawRow) : NormRow :=
let pid := as_int (getCell p c.pidCol)
let teamId := as_int (getCell p c.tidCol)
let teamAbbr := as_str (getCell p c.tabCol)
let oppTeamId := if teamId = g.homeTeamId then g.awayTeamId else g.homeTeamId
let oppAbbr := mapGetD m oppTeamId (Cell.strV "UNK")
let first := optStr p c.firstCol
let last := optStr p c.lastCol
let nm := strTrim (first ++ " " ++ last)
let name := if nm = "" then "PLAYER_" ++ toString pid else nm
let fgm := optInt p c.fgmCol
let fga := optInt p c.fgaCol
let fg3m := optInt p c.fg3mCol
let fg3a := optInt p c.fg3aCol
let ftm := optInt p c.ftmCol
let fta := optInt p c.ftaCol
{ player := name
  team := teamAbbr
  opponent := oppAbbr
  minPlayed := optStr p c.minCol
  pts := optInt p c.ptsCol
  oreb := optInt p c.orebCol
  dreb := optInt p c.drebCol
  reb := optInt p c.rebCol
  ast := optInt p c.astCol
  stl := optInt p c.stlCol
  blk := optInt p c.blkCol
  tov := optInt p c.tovCol
  fg := toString fgm ++ "-" ++ toString fga
  threeP := toString fg3m ++ "-" ++ toString fg3a
  ft := toString ftm ++ "-" ++ toString fta
  plusMinus := optStr p c.pmCol }

/-- The tracked-player oracle: the outcome of `is_duke_player` for a given
player id. `none` models the `except` branch (the biography lookup raised
after exhausting retries), which skips the row. -/
abbrev DukeOracle := Int → Option Bool

/-- One iteration of the per-player loop: skip on lookup failure or a
non-tracked player, otherwise emit the normalized row. -/
def processRow (g : Game) (m : List (Cell × Cell)) (c : Cols) (duke : DukeOracle)
    (p : RawRow) : Option NormRow :=
match duke (as_int (getCell p c.pidCol)) with
| none => none
| some false => none
| some true => some (buildRow g m c p)

/-- Processing one game of `get_duke_boxscores`: empty box score or an
unrecognizable schema contributes no rows (`continue`); otherwise every raw
row goes through the per-player loop. -/
def processGame (g : Game) (bs : BoxScore) (duke : DukeOracle) : List NormRow :=
if bs.rows.isEmpty then []
else
  match resolveCols bs.cols with
  | none => []
  | some c => bs.rows.filterMap (processRow g (buildTeamMap bs c.tidCol c.tabCol) c duke)

/-- The ordering used by `df.sort_values(["PTS", "Player"],
ascending=[False, True])`: points descending, then player name ascending. -/
def rowOrd (a b : NormRow) : Prop :=
b.pts < a.pts ∨ (a.pts = b.pts ∧ a.player ≤ b.player)

instance : DecidableRel rowOrd :=
fun _ _ => inferInstanceAs (Decidable (_ ∨ _))

/-- The final sort of the collected rows; `sort_values` with several keys is
a stable sort, modelled by stable insertion sort. -/
def sortRows (rs : List NormRow) : List NormRow :=
List.insertionSort rowOrd rs

/-- `get_duke_boxscores`: fetch the game list (empty list means an empty
report), process each game — a game whose box-score fetch fails after
retries is skipped (`boxes` returns `none`) — and sort the result. -/
def get_duke_boxscores (games : List Game) (boxes : String → Option BoxScore)
    (duke : DukeOracle) : List NormRow :=
if games.isEmpty then []
else
  let rows := games.flatMap (fun g =>
    match boxes g.gameId with
    | none => []
    | some bs => processGame g bs duke)
  if rows.isEmpty then [] else sortRows rows

/-- The raw rows of one box score that survive the per-player filter (a
resolvable schema and a positive tracked-player test); each of them yields
exactly one output row. -/
def survivingRows (bs : BoxScore) (duke : DukeOracle) : List RawRow :=
match resolveCols bs.cols with
| none => []
| some c => bs.rows.filter (fun p => decide (duke (as_int (getCell p c.pidCol)) = some true))

/- ---------------- RETRY POLICY ---------------- -/

/-- Outcome of one invocation of the wrapped operation: a return value, a
failure of one of the caught transient classes (`ReadTimeout`,
`ConnectionError`, `ChunkedEncodingError`, `TimeoutError`), or any other
exception, which the `except` clause does not catch. -/
inductive FnOutcome (α ε : Type) where
| ok : α → FnOutcome α ε
| transient : ε → FnOutcome α ε
| fatal : ε → FnOutcome α ε

/-- What `with_retries` does overall: return a value, re-raise the last
transient failure after the loop, let an uncaught exception escape
mid-loop, or hit the final `RuntimeError` (only reachable with zero
attempts). -/
inductive RetryResult (α ε : Type) where
| success : α → RetryResult α ε
| raisedTransient : ε → RetryResult α ε
| raisedFatal : ε → RetryResult α ε
| raisedUnknown : RetryResult α ε
deriving DecidableEq

/-- The `for attempt in range(1, retries + 1)` loop of `with_retries`,
tracking the number of invocations of `fn`. -/
def retryAux (fn : Nat → FnOutcome α ε) (attempt : Nat) :
    Nat → Option ε → RetryResult α ε × Nat
| 0, lastErr =>
  (match lastErr with
   | some e => RetryResult.raisedTransient e
   | none => RetryResult.raisedUnknown, 0)
| remaining + 1, _ =>
  match fn attempt with
  | FnOutcome.ok a => (RetryResult.success a, 1)
  | FnOutcome.fatal e => (RetryResult.raisedFatal e, 1)
  | FnOutcome.transient e =>
    let r := retryAux fn (attempt + 1) remaining (some e)
    (r.1, r.2 + 1)

/-- `with_retries(fn, retries=...)`: attempts are numbered from 1; the
second component counts how many times `fn` was invoked. -/
def with_retries (fn : Nat → FnOutcome α ε) (retries : Nat) : RetryResult α ε × Nat :=
retryAux fn 1 retries none

/- ---------------- SCHOOL CACHE ---------------- -/

/-- The first data frame of a `CommonPlayerInfo` response: its column names
and its first row. -/
structure BioDf where
cols : List String
row0 : RawRow

/-- Python truthiness of a cell (`None`, `0` and `""` are falsy; NaN is
truthy). -/
def truthyCell : Cell → Bool
| Cell.null => false
| Cell.nan => true
| Cell.intV n => decide (n ≠ 0)
| Cell.strV s => decide (s ≠ "")

/-- Python `str(x)` on a cell. -/
def pyStr : Cell → String
| Cell.null => "None"
| Cell.nan => "nan"
| Cell.intV n => toString n
| Cell.strV s => s

/-- `str(x or "")`. -/
def pyStrOr (c : Cell) : String :=
if truthyCell c then pyStr c else ""

/-- The school extraction of `get_player_school`: empty data frame (`none`)
yields `""`; otherwise the `SCHOOL` column is preferred, then `COLLEGE`,
else `""`. -/
def extractSchool (df : Option BioDf) : String :=
match df with
| none => ""
| some d =>
  if d.cols.contains "SCHOOL" then pyStrOr (getCell d.row0 "SCHOOL")
  else if d.cols.contains "COLLEGE" then pyStrOr (getCell d.row0 "COLLEGE")
  else ""

/-- The in-memory cache together with the durable copy last written by
`save_school_cache`. -/
structure SchoolState where
cache : List (String × String)
persisted : List (String × String)
deriving DecidableEq

/-- Reading `cache[key]` (with `key in cache` as the `isSome` test). -/
def cacheLookup (c : List (String × String)) (k : String) : Option String :=
(c.find? (fun q => q.1 = k)).map (fun q => q.2)

/-- `cache[key] = school` for a key not yet present. -/
def cacheInsert (c : List (String × String)) (k v : String) : List (String × String) :=
c ++ [(k, v)]

/-- `get_player_school`: a cache hit returns the cached string without any
remote fetch; a miss fetches the biography (`fetch` is the upstream
response), extracts the school, writes it to the cache, persists the cache,
and returns it. The boolean records whether a remote fetch happened. -/
def get_player_school (pid : Int) (st : SchoolState) (fetch : Int → Option BioDf) :
    String × SchoolState × Bool :=
let key := toString pid
match cacheLookup st.cache key with
| some s => (s, st, false)
| none =>
  let school := extractSchool (fetch pid)
  let newCache := cacheInsert st.cache key school
  (school, { cache := newCache, persisted := newCache }, true)

/-- Substring containment, Python's `sub in s`. -/
def strContainsSub (s pat : String) : Bool :=
(List.range (s.data.length + 1)).any (fun i => pat.data.isPrefixOf (s.data.drop i))

/-- `is_duke_player`: the resolved school, stripped and lowercased, must
contain the substring `"duke"`. -/
def is_duke_player (pid : Int) (st : SchoolState) (fetch : Int → Option BioDf) : Bool :=
strContainsSub (strLower (strTrim (get_player_school pid st fetch).1)) "duke"

/- ---------------- RENDERING AND DELIVERY ---------------- -/

/-- The e-mail body built by `send_email_table_only`: an empty data frame
renders the fixed no-alumni paragraph, a non-empty one renders its HTML
table (a function of the rows alone). -/
inductive EmailHtml where
| noAlumniMsg : EmailHtml
| tableOf : List NormRow → EmailHtml
deriving DecidableEq

/-- Lines 347–350 of the source: the body depends only on the stats rows;
the number of games found is not an input. -/
def email_html (stats : List NormRow) : EmailHtml :=
if stats.isEmpty then EmailHtml.noAlumniMsg else EmailHtml.tableOf stats

/-- The console rendering used when SMTP configuration is missing:
`"(empty)"` for an empty data frame, otherwise the markdown table. -/
inductive ConsoleBody where
| emptyMsg : ConsoleBody
| tableOf : List NormRow → ConsoleBody
deriving DecidableEq

/-- The console fallback body. -/
def console_table (stats : List NormRow) : ConsoleBody :=
if stats.isEmpty then ConsoleBody.emptyMsg else ConsoleBody.tableOf stats

/-- Python `not x` on an optional environment variable: unset or empty is
falsy. -/
def falsyEnv : Option String → Bool
| none => true
| some s => decide (s = "")

/-- What a call to `send_email_table_only` does: fall back to console
output, send successfully, or let an exception escape. -/
inductive DeliveryOutcome (ε : Type) where
| consoleFallback : ConsoleBody → DeliveryOutcome ε
| sent : DeliveryOutcome ε
| raised : ε → DeliveryOutcome ε
deriving DecidableEq

/-- `send_email_table_only`: missing configuration routes the table to the
console and returns; otherwise the message is sent through the transport
— the `with smtplib.SMTP(...)` block has no exception handler, so a
transport failure (`transport = Except.error e`) escapes the function. -/
def send_email_table_only (smtpHost emailFrom emailTo : Option String)
    (transport : Except ε Unit) (stats : List NormRow) : DeliveryOutcome ε :=
if falsyEnv emailTo || falsyEnv smtpHost || falsyEnv emailFrom then
  DeliveryOutcome.consoleFallback (console_table stats)
else
  match transport with
  | Except.ok _ => DeliveryOutcome.sent
  | Except.error e => DeliveryOutcome.raised e

/-- The delivery step of `main`: `main` calls `send_email_table_only` with
no surrounding handler, so its outcome is the outcome of the run. -/
def main_outcome (games : List Game) (boxes : String → Option BoxScore)
    (duke : DukeOracle) (smtpHost emailFrom emailTo : Option String)
    (transport : Except ε Unit) : DeliveryOutcome ε :=
send_email_table_only smtpHost emailFrom emailTo transport
  (get_duke_boxscores games boxes duke)

/- ---------------- CONCRETE INPUTS ----------------
Small fixed scenarios used to instantiate the theorems below. -/

/-- A game with home team 10 and away team 20. -/
def gEx : Game := ⟨"G1", 10, 20⟩

/-- A box-score row for player 555 of team 10: 30:00 minutes, 20 points. -/
def rowDupA : RawRow :=
[("TEAM_ID", Cell.intV 10), ("TEAM_ABBREVIATION", Cell.strV "AAA"),
 ("PLAYER_ID", Cell.intV 555), ("PLAYER_FIRST_NAME", Cell.strV "Kyrie"),
 ("PLAYER_LAST_NAME", Cell.strV "Irving"), ("MIN", Cell.strV "30:00"),
 ("PTS", Cell.intV 20)]

/-- A second row for the same player 555 in the same game, with different
minutes (20:00) and points (10). -/
def rowDupB : RawRow :=
[("TEAM_ID", Cell.intV 10), ("TEAM_ABBREVIATION", Cell.strV "AAA"),
 ("PLAYER_ID", Cell.intV 555), ("PLAYER_FIRST_NAME", Cell.strV "Kyrie"),
 ("PLAYER_LAST_NAME", Cell.strV "Irving"), ("MIN", Cell.strV "20:00"),
 ("PTS", Cell.intV 10)]

/-- A row for player 777 of the away team 20. -/
def rowAway : RawRow :=
[("TEAM_ID", Cell.intV 20), ("TEAM_ABBREVIATION", Cell.strV "BBB"),
 ("PLAYER_ID", Cell.intV 777), ("PLAYER_FIRST_NAME", Cell.strV "LeBron"),
 ("PLAYER_LAST_NAME", Cell.strV "James"), ("MIN", Cell.strV "35:00"),
 ("PTS", Cell.intV 30)]

/-- The shared column list of the example box scores. -/
def colsEx : List String :=
["TEAM_ID", "TEAM_ABBREVIATION", "PLAYER_ID", "PLAYER_FIRST_NAME",
 "PLAYER_LAST_NAME", "MIN", "PTS"]

/-- A box score holding two rows for the same (player 555, game G1) pair
with differing minutes. -/
def bsDup : BoxScore := ⟨colsEx, [rowDupA, rowDupB]⟩

/-- A box score with one row per team. -/
def bsFull : BoxScore := ⟨colsEx, [rowDupA, rowAway]⟩

/-- Box-score fetch returning `bsDup` for game G1. -/
def boxesDup : String → Option BoxScore :=
fun gid => if gid = "G1" then some bsDup else none

/-- Box-score fetch returning `bsFull` for game G1. -/
def boxesFull : String → Option BoxScore :=
fun gid => if gid = "G1" then some bsFull else none

/-- An oracle under which every player is tracked. -/
def dukeAll : DukeOracle := fun _ => some true

/-- An oracle under which no player is tracked. -/
def dukeNone : DukeOracle := fun _ => some false

/-- The resolved columns of `colsEx`. -/
def colsExResolved : Cols :=
{ tidCol := "TEAM_ID"
  tabCol := "TEAM_ABBREVIATION"
  pidCol := "PLAYER_ID"
  firstCol := some "PLAYER_FIRST_NAME"
  lastCol := some "PLAYER_LAST_NAME"
  minCol := some "MIN"
  ptsCol := some "PTS"
  orebCol := none
  drebCol := none
  rebCol := none
  astCol := none
  stlCol := none
  blkCol := none
  tovCol := none
  fgmCol := none
  fgaCol := none
  fg3mCol := none
  fg3aCol := none
  ftmCol := none
  ftaCol := none
  pmCol := none }

/-- A resolved column set in which the name columns are unresolvable. -/
def colsNoName : Cols :=
{ colsExResolved with firstCol := none, lastCol := none }

/- ==================== THEOREMS ==================== -/

/-- If every remaining attempt fails transiently, the loop performs all of
them and ends holding the failure of the last one. -/
theorem retryAux_all_transient {α ε : Type} (fn : Nat → FnOutcome α ε) (e : Nat → ε) :
    ∀ (remaining attempt : Nat) (x : ε),
    (∀ i, attempt ≤ i → i < attempt + remaining → fn i = FnOutcome.transient (e i)) →
    retryAux fn attempt remaining (some x)
      = (RetryResult.raisedTransient
          (if remaining = 0 then x else e (attempt + remaining - 1)), remaining) := by
intro remaining
induction remaining with
| zero => intro attempt x _; rfl
| succ rem ih =>
  intro attempt x h
  have hfn : fn attempt = FnOutcome.transient (e attempt) :=
    h attempt (Nat.le_refl _) (by omega)
  show (match fn attempt with
        | FnOutcome.ok a => (RetryResult.success a, 1)
        | FnOutcome.fatal e => (RetryResult.raisedFatal e, 1)
        | FnOutcome.transient e =>
          let r := retryAux fn (attempt + 1) rem (some e)
          (r.1, r.2 + 1)) = _
  rw [hfn]
  dsimp only
  have hrec := ih (attempt + 1) (e attempt) (fun i h1 h2 => h i (by omega) (by omega))
  rw [hrec]
  cases rem with
  | zero => simp
  | succ s =>
    simp only [if_neg (Nat.succ_ne_zero s), if_neg (Nat.succ_ne_zero (s + 1))]
    have harg : attempt + 1 + (s + 1) - 1 = attempt + (s + 1 + 1) - 1 := by omega
    rw [harg]

/-- If the first `m` attempts fail transiently and attempt `attempt + m`
succeeds, the loop returns the success value after `m + 1` invocations. -/
theorem retryAux_success {α ε : Type} (fn : Nat → FnOutcome α ε) (a : α) :
    ∀ (m remaining attempt : Nat) (lastErr : Option ε),
    m < remaining →
    (∀ i, attempt ≤ i → i < attempt + m → ∃ x, fn i = FnOutcome.transient x) →
    fn (attempt + m) = FnOutcome.ok a →
    retryAux fn attempt remaining lastErr = (RetryResult.success a, m + 1) := by
intro m
induction m with
| zero =>
  intro remaining attempt lastErr hlt _ hok
  cases remaining with
  | zero => omega
  | succ rem =>
    show (match fn attempt with
          | FnOutcome.ok a => (RetryResult.success a, 1)
          | FnOutcome.fatal e => (RetryResult.raisedFatal e, 1)
          | FnOutcome.transient e =>
            let r := retryAux fn (attempt + 1) rem (some e)
            (r.1, r.2 + 1)) = _
    rw [show attempt + 0 = attempt from rfl] at hok
    rw [hok]
| succ k ih =>
  intro remaining attempt lastErr hlt htr hok
  cases remaining with
  | zero => omega
  | succ rem =>
    obtain ⟨x, hx⟩ := htr attempt (Nat.le_refl _) (by omega)
    show (match fn attempt with
          | FnOutcome.ok a => (RetryResult.success a, 1)
          | FnOutcome.fatal e => (RetryResult.raisedFatal e, 1)
          | FnOutcome.transient e =>
            let r := retryAux fn (attempt + 1) rem (some e)
            (r.1, r.2 + 1)) = _
    rw [hx]
    dsimp only
    have hrec := ih rem (attempt + 1) (some x) (by omega)
      (fun i h1 h2 => htr i (by omega) (by omega))
      (by rw [show attempt + 1 + k = attempt + (k + 1) from by omega]; exact hok)
    rw [hrec]

/-- C4: a zero-argument operation raising a transient failure on every
invocation is attempted exactly `retries` times, after which the last
transient failure is re-raised; an operation that first succeeds on attempt
`k ≤ retries` yields its success value after exactly `k` invocations
(`k - 1` failed attempts followed by the success). -/
theorem with_retries_spec {α ε : Type} (fn : Nat → FnOutcome α ε) (retries : Nat)
    (e : Nat → ε) (a : α) (k : Nat) :
    ((1 ≤ retries →
      (∀ i, 1 ≤ i → i ≤ retries → fn i = FnOutcome.transient (e i)) →
      with_retries fn retries = (RetryResult.raisedTransient (e retries), retries))
    ∧ (1 ≤ k → k ≤ retries →
      (∀ i, 1 ≤ i → i < k → ∃ x, fn i = FnOutcome.transient x) →
      fn k = FnOutcome.ok a →
      with_retries fn retries = (RetryResult.success a, k))) := by
constructor
· intro hr h
  cases retries with
  | zero => omega
  | succ r =>
    have hfn : fn 1 = FnOutcome.transient (e 1) := h 1 (Nat.le_refl _) (by omega)
    show (match fn 1 with
          | FnOutcome.ok a => (RetryResult.success a, 1)
          | FnOutcome.fatal e => (RetryResult.raisedFatal e, 1)
          | FnOutcome.transient e =>
            let r := retryAux fn 2 r (some e)
            (r.1, r.2 + 1)) = _
    rw [hfn]
    dsimp only
    have hrec := retryAux_all_transient fn e r 2 (e 1)
      (fun i h1 h2 => h i (by omega) (by omega))
    rw [hrec]
    cases r with
    | zero => simp
    | succ s =>
      simp only [if_neg (Nat.succ_ne_zero s)]
      have harg : 2 + (s + 1) - 1 = s + 1 + 1 := by omega
      rw [harg]
· intro hk1 hkr htr hok
  obtain ⟨m, rfl⟩ : ∃ m, k = m + 1 := ⟨k - 1, by omega⟩
  exact retryAux_success fn a m retries 1 none (by omega)
    (fun i h1 h2 => htr i h1 (by omega))
    (by rw [show 1 + m = m + 1 from by omega]; exact hok)

/-- Witness for C4: three all-transient attempts raise the third failure
after three invocations; success on attempt 3 of 5 returns after exactly
two failures and one success. -/
theorem with_retries_spec_witness :
    with_retries (fun i => (FnOutcome.transient i : FnOutcome Nat Nat)) 3
      = (RetryResult.raisedTransient 3, 3)
    ∧ with_retries (fun i => if i = 3 then FnOutcome.ok 99 else (FnOutcome.transient i : FnOutcome Nat Nat)) 5
      = (RetryResult.success 99, 3) := by
constructor
· exact (with_retries_spec (fun i => FnOutcome.transient i) 3 (fun i => i) 0 0).1
    (by omega) (fun i h1 h2 => rfl)
· exact (with_retries_spec (fun i => if i = 3 then FnOutcome.ok 99 else FnOutcome.transient i)
    5 (fun i => i) 99 3).2
    (by omega) (by omega)
    (fun i h1 h2 => ⟨i, by simp [show i ≠ 3 from by omega]⟩)
    (by simp)

/-- A successful `lower_map` lookup returns a column of the table whose
lowercase form is the key. -/
theorem lowerLookup_mem_aux (key : String) :
    ∀ (cols : List String) (acc : Option String) (col : String),
    cols.foldl (fun acc c => if strLower c = key then some c else acc) acc = some col →
    acc = some col ∨ (col ∈ cols ∧ strLower col = key) := by
intro cols
induction cols with
| nil => intro acc col h; exact Or.inl h
| cons c cs ih =>
  intro acc col h
  rcases ih (if strLower c = key then some c else acc) col h with h2 | h2
  · by_cases hc : strLower c = key
    · rw [if_pos hc] at h2
      cases h2
      exact Or.inr ⟨List.mem_cons_self c cs, hc⟩
    · rw [if_neg hc] at h2
      exact Or.inl h2
  · exact Or.inr ⟨List.mem_cons_of_mem c h2.1, h2.2⟩

/-- A `lower_map` lookup that misses every column returns nothing. -/
theorem lowerLookup_eq_none (key : String) :
    ∀ cols : List String, (∀ col ∈ cols, strLower col ≠ key) →
    lowerLookup cols key = none := by
have go : ∀ (cols : List String), (∀ col ∈ cols, strLower col ≠ key) →
    cols.foldl (fun acc c => if strLower c = key then some c else acc) none = none := by
  intro cols
  induction cols with
  | nil => intro _; rfl
  | cons c cs ih =>
    intro h
    have hc : strLower c ≠ key := h c (List.mem_cons_self c cs)
    show List.foldl _ (if strLower c = key then some c else none) cs = none
    rw [if_neg hc]
    exact ih (fun col hm => h col (List.mem_cons_of_mem c hm))
intro cols h
exact go cols h

/-- C5: `pick_col` returns the first candidate present verbatim among the
table's columns; failing that, for the earliest candidate with a
case-insensitive match it returns a table column with that lowercase form;
and when no candidate matches even case-insensitively it returns `none`
(absence, not an error). -/
theorem pick_col_spec (cols candidates : List String) :
    ((∀ c, candidates.find? (fun x => cols.contains x) = some c →
      pick_col cols candidates = some c)
    ∧ (candidates.find? (fun x => cols.contains x) = none →
      ∀ c, candidates.find? (fun x => (lowerLookup cols (strLower x)).isSome) = some c →
      ∃ col, col ∈ cols ∧ strLower col = strLower c ∧ pick_col cols candidates = some col)
    ∧ ((∀ c ∈ candidates, ∀ col ∈ cols, strLower col ≠ strLower c) →
      pick_col cols candidates = none)) := by
refine ⟨?_, ?_, ?_⟩
· intro c h
  unfold pick_col
  rw [h]
· intro hex c h
  have hsome : (lowerLookup cols (strLower c)).isSome = true := by
    simpa using List.find?_some h
  cases hlk : lowerLookup cols (strLower c) with
  | none => rw [hlk] at hsome; cases hsome
  | some col =>
    rcases lowerLookup_mem_aux (strLower c) cols none col hlk with h2 | h2
    · cases h2
    · refine ⟨col, h2.1, h2.2, ?_⟩
      unfold pick_col
      rw [hex, h]
      exact hlk
· intro h
  have hex : candidates.find? (fun x => cols.contains x) = none := by
    rw [List.find?_eq_none]
    intro x hx hc
    have hxc : x ∈ cols := by simpa using hc
    exact h x hx x hxc rfl
  have hci : candidates.find? (fun x => (lowerLookup cols (strLower x)).isSome) = none := by
    rw [List.find?_eq_none]
    intro x hx hc
    rw [lowerLookup_eq_none (strLower x) cols (fun col hcol => h x hx col hcol)] at hc
    cases hc
  unfold pick_col
  rw [hex, hci]

/-- Witness for C5: an exact match wins, and with no exact match the
case-insensitive second pass resolves the earliest matching candidate. -/
theorem pick_col_spec_witness :
    pick_col ["PTS", "Player"] ["PTS", "points"] = some "PTS"
    ∧ ∃ col, col ∈ ["Pts", "pts"] ∧ strLower col = strLower "PTS"
      ∧ pick_col ["Pts", "pts"] ["PTS", "points"] = some col := by
constructor
· exact (pick_col_spec ["PTS", "Player"] ["PTS", "points"]).1 "PTS" (by decide)
· exact (pick_col_spec ["Pts", "pts"] ["PTS", "points"]).2.1 (by decide) "PTS" (by decide)

/-- A row emitted by the per-player loop is exactly the normalized row built
from its raw row. -/
theorem processRow_eq_some (g : Game) (m : List (Cell × Cell)) (c : Cols)
    (duke : DukeOracle) (p : RawRow) (r : NormRow)
    (h : processRow g m c duke p = some r) : r = buildRow g m c p := by
unfold processRow at h
cases hd : duke (as_int (getCell p c.pidCol)) with
| none => rw [hd] at h; cases h
| some b =>
  rw [hd] at h
  cases b
  · cases h
  · injection h with h2
    exact h2.symm

/-- The per-player loop emits a row exactly when the tracked-player test
succeeds. -/
theorem processRow_isSome (g : Game) (m : List (Cell × Cell)) (c : Cols)
    (duke : DukeOracle) (p : RawRow) :
    (processRow g m c duke p).isSome
      = decide (duke (as_int (getCell p c.pidCol)) = some true) := by
unfold processRow
cases hd : duke (as_int (getCell p c.pidCol)) with
| none => simp
| some b => cases b <;> simp

/-- Counting a `filterMap` whose success condition is a boolean filter. -/
theorem length_filterMap_eq_filter {α β : Type} (f : α → Option β) (q : α → Bool)
    (h : ∀ a, (f a).isSome = q a) :
    ∀ l : List α, (l.filterMap f).length = (l.filter q).length := by
intro l
induction l with
| nil => rfl
| cons a as ih =>
  cases hf : f a with
  | none =>
    have hq : q a = false := by rw [← h a, hf]; rfl
    simp [List.filterMap_cons, List.filter_cons, hf, hq, ih]
  | some b =>
    have hq : q a = true := by rw [← h a, hf]; rfl
    simp [List.filterMap_cons, List.filter_cons, hf, hq, ih]

/-- Each surviving raw row yields exactly one output row: the collector
performs no deduplication. -/
theorem processGame_length (g : Game) (bs : BoxScore) (duke : DukeOracle) :
    (processGame g bs duke).length = (survivingRows bs duke).length := by
unfold processGame survivingRows
cases hE : bs.rows.isEmpty with
| true =>
  have hnil : bs.rows = [] := List.isEmpty_iff.mp hE
  rw [hnil]
  cases resolveCols bs.cols <;> simp
| false =>
  simp only [hE, Bool.false_eq_true, if_false]
  cases hR : resolveCols bs.cols with
  | none => rfl
  | some c =>
    exact length_filterMap_eq_filter _ _
      (fun p => processRow_isSome g (buildTeamMap bs c.tidCol c.tabCol) c duke p) bs.rows

/-- Every output row of one game comes from a raw row of its box score via
`buildRow`. -/
theorem mem_processGame (g : Game) (bs : BoxScore) (duke : DukeOracle) (r : NormRow)
    (h : r ∈ processGame g bs duke) :
    ∃ c p, resolveCols bs.cols = some c ∧ p ∈ bs.rows
      ∧ r = buildRow g (buildTeamMap bs c.tidCol c.tabCol) c p := by
unfold processGame at h
by_cases hE : bs.rows.isEmpty = true
· rw [if_pos hE] at h
  cases h
· rw [if_neg hE] at h
  cases hR : resolveCols bs.cols with
  | none => rw [hR] at h; cases h
  | some c =>
    rw [hR] at h
    rcases List.mem_filterMap.mp h with ⟨p, hp, hpr⟩
    exact ⟨c, p, rfl, hp, processRow_eq_some _ _ _ _ _ _ hpr⟩

/-- The resolved rebounds column is the `pick_col` result for the rebound
aliases. -/
theorem resolveCols_rebCol (cols : List String) (c : Cols)
    (h : resolveCols cols = some c) : c.rebCol = pick_col cols rebCands := by
unfold resolveCols at h
split at h
· split at h
  · cases h
    rfl
  · cases h
· cases h

/-- The per-game output lengths, summed over the game list. -/
theorem flatMap_boxes_length (boxes : String → Option BoxScore) (duke : DukeOracle) :
    ∀ games : List Game,
    (games.flatMap (fun g => match boxes g.gameId with
      | none => []
      | some bs => processGame g bs duke)).length
    = (games.map (fun g => match boxes g.gameId with
      | none => 0
      | some bs => (survivingRows bs duke).length)).sum := by
intro games
induction games with
| nil => rfl
| cons g gs ih =>
  simp only [List.flatMap_cons, List.length_append, List.map_cons, List.sum_cons, ih]
  congr 1
  cases boxes g.gameId with
  | none => rfl
  | some bs => exact processGame_length g bs duke

/-- C1 (counterexample): a box score carrying two rows for the same
(player 555, game G1) pair with differing minutes makes the collector emit
two rows, not the single greater-minutes row the claim requires. -/
theorem dedup_counterexample :
    getCell rowDupA "PLAYER_ID" = getCell rowDupB "PLAYER_ID"
    ∧ getCell rowDupA "MIN" ≠ getCell rowDupB "MIN"
    ∧ (get_duke_boxscores [gEx] boxesDup dukeAll).length = 2 := by
refine ⟨by decide, by decide, by decide⟩

/-- C1 (amended): the collector performs no deduplication — its output has
exactly one row per surviving raw box-score row, so upstream rows sharing a
(player identifier, game identifier) pair all appear in the final output. -/
theorem no_dedup_amended (games : List Game) (boxes : String → Option BoxScore)
    (duke : DukeOracle) :
    (get_duke_boxscores games boxes duke).length
    = (games.map (fun g => match boxes g.gameId with
        | none => 0
        | some bs => (survivingRows bs duke).length)).sum := by
unfold get_duke_boxscores
by_cases hE : games.isEmpty = true
· have hnil : games = [] := List.isEmpty_iff.mp hE
  subst hnil
  rfl
· rw [if_neg hE]
  show (if (games.flatMap (fun g => match boxes g.gameId with
      | none => []
      | some bs => processGame g bs duke)).isEmpty = true then ([] : List NormRow)
    else sortRows (games.flatMap (fun g => match boxes g.gameId with
      | none => []
      | some bs => processGame g bs duke))).length = _
  by_cases hR : (games.flatMap (fun g => match boxes g.gameId with
      | none => []
      | some bs => processGame g bs duke)).isEmpty = true
  · rw [if_pos hR, ← flatMap_boxes_length boxes duke games, List.isEmpty_iff.mp hR]
  · rw [if_neg hR, ← flatMap_boxes_length boxes duke games]
    exact List.length_insertionSort rowOrd _

/-- C6: when the rebounds field is absent under all known aliases, every
output row has rebounds 0 while the remaining rows and fields are processed
unaffected (no row is dropped for it), and the coercions default missing or
unparsable values to 0 and the empty string instead of raising. -/
theorem reb_default (g : Game) (bs : BoxScore) (duke : DukeOracle)
    (h : pick_col bs.cols rebCands = none) :
    ((∀ r ∈ processGame g bs duke, r.reb = 0)
    ∧ (processGame g bs duke).length = (survivingRows bs duke).length
    ∧ as_int Cell.null = 0 ∧ as_int Cell.nan = 0 ∧ as_int (Cell.strV "DNP") = 0
    ∧ as_str Cell.null = "" ∧ as_str Cell.nan = "") := by
refine ⟨?_, processGame_length g bs duke, rfl, rfl, by decide, rfl, rfl⟩
intro r hr
rcases mem_processGame g bs duke r hr with ⟨c, p, hc, hp, hbuild⟩
have hreb : c.rebCol = none := by rw [resolveCols_rebCol bs.cols c hc, h]
rw [hbuild]
show optInt p c.rebCol = 0
rw [hreb]
rfl

/-- Witness for C6: the example box score has no rebound column, and its two
surviving rows are both emitted. -/
theorem reb_default_witness :
    (processGame gEx bsDup dukeAll).length = (survivingRows bsDup dukeAll).length :=
(reb_default gEx bsDup dukeAll (by decide)).2.1

/-- The comparison `rowOrd` is total. -/
instance : IsTotal NormRow rowOrd := by
constructor
intro a b
unfold rowOrd
rcases lt_trichotomy a.pts b.pts with h | h | h
· exact Or.inr (Or.inl h)
· rcases le_total a.player b.player with hp | hp
  · exact Or.inl (Or.inr ⟨h, hp⟩)
  · exact Or.inr (Or.inr ⟨h.symm, hp⟩)
· exact Or.inl (Or.inl h)

/-- The comparison `rowOrd` is transitive. -/
instance : IsTrans NormRow rowOrd := by
constructor
intro a b c hab hbc
unfold rowOrd at hab hbc ⊢
rcases hab with h1 | ⟨h1, h1p⟩ <;> rcases hbc with h2 | ⟨h2, h2p⟩
· exact Or.inl (by omega)
· exact Or.inl (by omega)
· exact Or.inl (by omega)
· exact Or.inr ⟨by omega, le_trans h1p h2p⟩

/-- The final sort orders rows by `rowOrd`. -/
theorem sortRows_pairwise (rs : List NormRow) : (sortRows rs).Pairwise rowOrd :=
List.sorted_insertionSort rowOrd rs

/-- C8: every final report is sorted by points descending, with ties broken
by player name ascending; the same ordering is applied on every run. -/
theorem report_sorted (games : List Game) (boxes : String → Option BoxScore)
    (duke : DukeOracle) :
    (get_duke_boxscores games boxes duke).Pairwise
      (fun a b => b.pts < a.pts ∨ (a.pts = b.pts ∧ a.player ≤ b.player)) := by
have hord : ∀ l : List NormRow, l.Pairwise rowOrd →
    l.Pairwise (fun a b => b.pts < a.pts ∨ (a.pts = b.pts ∧ a.player ≤ b.player)) := by
  intro l hl
  exact hl.imp (fun h => h)
unfold get_duke_boxscores
by_cases hE : games.isEmpty = true
· rw [if_pos hE]
  exact List.Pairwise.nil
· rw [if_neg hE]
  show (if (games.flatMap (fun g => match boxes g.gameId with
      | none => []
      | some bs => processGame g bs duke)).isEmpty = true then ([] : List NormRow)
    else sortRows (games.flatMap (fun g => match boxes g.gameId with
      | none => []
      | some bs => processGame g bs duke))).Pairwise _
  by_cases hR : (games.flatMap (fun g => match boxes g.gameId with
      | none => []
      | some bs => processGame g bs duke)).isEmpty = true
  · rw [if_pos hR]
    exact List.Pairwise.nil
  · rw [if_neg hR]
    exact hord _ (sortRows_pairwise _)

/-- A name with the `PLAYER_` fallback marker is never empty. -/
theorem player_marker_ne_empty (s : String) : ("PLAYER_" ++ s) ≠ "" := by
intro h
have h2 := congrArg String.length h
rw [String.length_append] at h2
have h3 : "PLAYER_".length = 7 := rfl
have h4 : "".length = 0 := rfl
rw [h3, h4] at h2
omega

/-- C10: when the first- and last-name fields are both unresolvable or both
coerce to the empty string, the output name is `PLAYER_` followed by the
player identifier; and the Player field of an output row is never empty. -/
theorem player_fallback (g : Game) (m : List (Cell × Cell)) (c : Cols) (p : RawRow)
    (bs : BoxScore) (duke : DukeOracle) :
    ((optStr p c.firstCol = "" → optStr p c.lastCol = "" →
      (buildRow g m c p).player = "PLAYER_" ++ toString (as_int (getCell p c.pidCol)))
    ∧ (∀ r ∈ processGame g bs duke, r.player ≠ "")) := by
constructor
· intro h1 h2
  show (if strTrim (optStr p c.firstCol ++ " " ++ optStr p c.lastCol) = ""
      then "PLAYER_" ++ toString (as_int (getCell p c.pidCol))
      else strTrim (optStr p c.firstCol ++ " " ++ optStr p c.lastCol)) = _
  rw [h1, h2]
  rw [if_pos (by decide)]
· intro r hr
  rcases mem_processGame g bs duke r hr with ⟨c', p', hc, hp, hbuild⟩
  rw [hbuild]
  show (if strTrim (optStr p' c'.firstCol ++ " " ++ optStr p' c'.lastCol) = ""
      then "PLAYER_" ++ toString (as_int (getCell p' c'.pidCol))
      else strTrim (optStr p' c'.firstCol ++ " " ++ optStr p' c'.lastCol)) ≠ ""
  by_cases hnm : strTrim (optStr p' c'.firstCol ++ " " ++ optStr p' c'.lastCol) = ""
  · rw [if_pos hnm]
    exact player_marker_ne_empty _
  · rw [if_neg hnm]
    exact hnm

/-- Witness for C10: a schema with no name columns yields the marker name
for player 555. -/
theorem player_fallback_witness :
    (buildRow gEx [] colsNoName rowDupA).player = "PLAYER_555" := by
have h := (player_fallback gEx [] colsNoName rowDupA bsDup dukeAll).1 rfl rfl
rw [h]
decide

/-- C7: a player on the home team gets the away team's map entry as
opponent and any other player gets the home team's entry, both resolved
through the per-game map built from the box score's own rows; a missing
entry resolves to the sentinel `UNK`. -/
theorem opponent_resolution (g : Game) (bs : BoxScore) (tid tab : String)
    (c : Cols) (p : RawRow) :
    ((as_int (getCell p c.tidCol) = g.homeTeamId →
      (buildRow g (buildTeamMap bs tid tab) c p).opponent
        = mapGetD (buildTeamMap bs tid tab) g.awayTeamId (Cell.strV "UNK"))
    ∧ (as_int (getCell p c.tidCol) ≠ g.homeTeamId →
      (buildRow g (buildTeamMap bs tid tab) c p).opponent
        = mapGetD (buildTeamMap bs tid tab) g.homeTeamId (Cell.strV "UNK"))
    ∧ (∀ k, toDict (buildTeamMap bs tid tab) (Cell.intV k) = none →
      mapGetD (buildTeamMap bs tid tab) k (Cell.strV "UNK") = Cell.strV "UNK")) := by
refine ⟨?_, ?_, ?_⟩
· intro h
  show mapGetD (buildTeamMap bs tid tab)
      (if as_int (getCell p c.tidCol) = g.homeTeamId then g.awayTeamId else g.homeTeamId)
      (Cell.strV "UNK") = _
  rw [if_pos h]
· intro h
  show mapGetD (buildTeamMap bs tid tab)
      (if as_int (getCell p c.tidCol) = g.homeTeamId then g.awayTeamId else g.homeTeamId)
      (Cell.strV "UNK") = _
  rw [if_neg h]
· intro k hk
  unfold mapGetD
  rw [hk]
  rfl

/-- Witness for C7: in the two-team example game, the home player's row
resolves the away abbreviation BBB through the per-game map. -/
theorem opponent_resolution_witness :
    (buildRow gEx (buildTeamMap bsFull "TEAM_ID" "TEAM_ABBREVIATION")
      colsExResolved rowDupA).opponent = Cell.strV "BBB" := by
have h := (opponent_resolution gEx bsFull "TEAM_ID" "TEAM_ABBREVIATION"
  colsExResolved rowDupA).1 (by decide)
rw [h]
decide

/-- C2 (counterexample): a date with zero games and a date with games but no
tracked player in any box score both produce the empty report, and the
rendered e-mail body is the identical no-alumni message in both cases — the
two cases are conflated, not textually distinct. -/
theorem conflated_counterexample :
    get_duke_boxscores [] boxesDup dukeNone = []
    ∧ get_duke_boxscores [gEx] boxesDup dukeNone = []
    ∧ boxesDup gEx.gameId = some bsDup
    ∧ bsDup.rows ≠ []
    ∧ email_html (get_duke_boxscores [] boxesDup dukeNone)
        = email_html (get_duke_boxscores [gEx] boxesDup dukeNone)
    ∧ email_html (get_duke_boxscores [] boxesDup dukeNone) = EmailHtml.noAlumniMsg := by
refine ⟨rfl, by decide, by decide, by decide, by decide, rfl⟩

/-- C2 (amended): the rendering does not distinguish the two cases — the
body is a function of the report alone, so a zero-games run and any run
whose report is empty render the same no-alumni message. -/
theorem conflated_amended (g1 : List Game) (b1 : String → Option BoxScore) (d1 : DukeOracle)
    (g2 : List Game) (b2 : String → Option BoxScore) (d2 : DukeOracle)
    (h1 : g1 = []) (h2 : get_duke_boxscores g2 b2 d2 = []) :
    email_html (get_duke_boxscores g1 b1 d1) = EmailHtml.noAlumniMsg
    ∧ email_html (get_duke_boxscores g1 b1 d1) = email_html (get_duke_boxscores g2 b2 d2) := by
subst h1
rw [h2]
exact ⟨rfl, rfl⟩

/-- Witness for C2 (amended): the zero-games run and the games-without-
matches run render the same body. -/
theorem conflated_amended_witness :
    email_html (get_duke_boxscores [] boxesDup dukeNone) = EmailHtml.noAlumniMsg
    ∧ email_html (get_duke_boxscores [] boxesDup dukeNone)
      = email_html (get_duke_boxscores [gEx] boxesDup dukeNone) :=
conflated_amended [] boxesDup dukeNone [gEx] boxesDup dukeNone rfl (by decide)

/-- C3 (counterexample): with transport configuration present and a
transport that throws during the send, the run ends with the exception
escaping, not with a console fallback. -/
theorem delivery_crash_counterexample :
    main_outcome [] boxesDup dukeNone (some "smtp.example.com") (some "from@example.com")
        (some "to@example.com") (Except.error (7 : Nat)) = DeliveryOutcome.raised 7
    ∧ main_outcome [] boxesDup dukeNone (some "smtp.example.com") (some "from@example.com")
        (some "to@example.com") (Except.error (7 : Nat))
      ≠ DeliveryOutcome.consoleFallback
          (console_table (get_duke_boxscores [] boxesDup dukeNone)) := by
refine ⟨by decide, by decide⟩

/-- C3 (amended): when configuration is present and the transport throws
during send, the exception propagates out of `send_email_table_only` and
out of the top-level run — there is no catch and no console fallback;
console output happens only when configuration is absent. -/
theorem delivery_crash_amended {ε : Type} (host f t : Option String) (tr : Except ε Unit)
    (stats : List NormRow) (e : ε) (games : List Game) (boxes : String → Option BoxScore)
    (duke : DukeOracle)
    (hcfg : (falsyEnv t || falsyEnv host || falsyEnv f) = false)
    (htr : tr = Except.error e) :
    send_email_table_only host f t tr stats = DeliveryOutcome.raised e
    ∧ main_outcome games boxes duke host f t tr = DeliveryOutcome.raised e
    ∧ ∀ host2 f2 t2 (tr2 : Except ε Unit) stats2,
        (falsyEnv t2 || falsyEnv host2 || falsyEnv f2) = true →
        send_email_table_only host2 f2 t2 tr2 stats2
          = DeliveryOutcome.consoleFallback (console_table stats2) := by
have hsend : ∀ stats' : List NormRow,
    send_email_table_only host f t tr stats' = DeliveryOutcome.raised e := by
  intro stats'
  unfold send_email_table_only
  rw [hcfg, htr]
  rfl
refine ⟨hsend stats, hsend _, ?_⟩
intro host2 f2 t2 tr2 stats2 h2
unfold send_email_table_only
rw [h2]
rfl

/-- Witness for C3 (amended): a concrete present configuration and failing
transport yield the escaped exception. -/
theorem delivery_crash_amended_witness :
    send_email_table_only (some "smtp.example.com") (some "from@example.com")
      (some "to@example.com") (Except.error (5 : Nat)) [] = DeliveryOutcome.raised 5 :=
(delivery_crash_amended (some "smtp.example.com") (some "from@example.com")
  (some "to@example.com") (Except.error 5) [] 5 [] boxesDup dukeNone (by decide) rfl).1

/-- Appending a new entry for an absent key makes it retrievable. -/
theorem cacheLookup_append_new (k v : String) :
    ∀ c : List (String × String), cacheLookup c k = none →
    cacheLookup (c ++ [(k, v)]) k = some v := by
intro c
induction c with
| nil =>
  intro _
  simp [cacheLookup]
| cons q qs ih =>
  intro h
  by_cases hq : q.1 = k
  · exfalso
    unfold cacheLookup at h
    rw [List.find?_cons_of_pos qs (by simp [hq])] at h
    cases h
  · unfold cacheLookup at h ⊢
    rw [List.find?_cons_of_neg qs (by simp [hq])] at h
    show ((q :: (qs ++ [(k, v)])).find? (fun q => q.1 = k)).map (fun q => q.2) = some v
    rw [List.find?_cons_of_neg (qs ++ [(k, v)]) (by simp [hq])]
    exact ih h

/-- Appending entries never changes the value found for an existing key. -/
theorem cacheLookup_append_mono (k v : String) (zs : List (String × String)) :
    ∀ c : List (String × String), cacheLookup c k = some v →
    cacheLookup (c ++ zs) k = some v := by
intro c h
unfold cacheLookup at h ⊢
cases hf : c.find? (fun q => decide (q.1 = k)) with
| none => rw [hf] at h; cases h
| some q =>
  rw [hf] at h
  rw [List.find?_append, hf]
  exact h

/-- C9: once `get_player_school` resolves a school string (including the
empty string for an empty or school-less biography), it is written to the
cache and persisted; later calls for the same identifier return the cached
string with no remote fetch; existing entries are never overwritten or
removed; and a cached empty school makes `is_duke_player` false on all
later runs. -/
theorem school_cache_spec (pid : Int) (st : SchoolState) (fetch fetch2 : Int → Option BioDf)
    (hmiss : cacheLookup st.cache (toString pid) = none) :
    (cacheLookup (get_player_school pid st fetch).2.1.cache (toString pid)
        = some (get_player_school pid st fetch).1
    ∧ (get_player_school pid st fetch).2.1.persisted = (get_player_school pid st fetch).2.1.cache
    ∧ get_player_school pid (get_player_school pid st fetch).2.1 fetch2
        = ((get_player_school pid st fetch).1, (get_player_school pid st fetch).2.1, false)
    ∧ (∀ k v, cacheLookup st.cache k = some v →
        cacheLookup (get_player_school pid st fetch).2.1.cache k = some v)
    ∧ ((fetch pid = none ∨ ∃ d, fetch pid = some d
          ∧ d.cols.contains "SCHOOL" = false ∧ d.cols.contains "COLLEGE" = false) →
        (get_player_school pid st fetch).1 = "")
    ∧ ((get_player_school pid st fetch).1 = "" →
        is_duke_player pid (get_player_school pid st fetch).2.1 fetch2 = false)) := by
have hcall : get_player_school pid st fetch
    = (extractSchool (fetch pid),
       { cache := cacheInsert st.cache (toString pid) (extractSchool (fetch pid))
         persisted := cacheInsert st.cache (toString pid) (extractSchool (fetch pid)) },
       true) := by
  simp only [get_player_school, hmiss]
have hhit : cacheLookup (cacheInsert st.cache (toString pid) (extractSchool (fetch pid)))
    (toString pid) = some (extractSchool (fetch pid)) :=
  cacheLookup_append_new (toString pid) (extractSchool (fetch pid)) st.cache hmiss
have h1 : cacheLookup (get_player_school pid st fetch).2.1.cache (toString pid)
    = some (get_player_school pid st fetch).1 := by
  rw [hcall]
  exact hhit
have h3 : get_player_school pid (get_player_school pid st fetch).2.1 fetch2
    = ((get_player_school pid st fetch).1, (get_player_school pid st fetch).2.1, false) := by
  rw [hcall]
  simp only [get_player_school, hhit]
refine ⟨h1, ?_, h3, ?_, ?_, ?_⟩
· rw [hcall]
· intro k v hk
  rw [hcall]
  exact cacheLookup_append_mono k v [(toString pid, extractSchool (fetch pid))] st.cache hk
· intro hsrc
  rw [hcall]
  rcases hsrc with hn | ⟨d, hd, hs, hcg⟩
  · show extractSchool (fetch pid) = ""
    rw [hn]
    rfl
  · show extractSchool (fetch pid) = ""
    simp only [extractSchool, hd, hs, hcg]
    rfl
· intro hempty
  unfold is_duke_player
  rw [h3]
  show strContainsSub (strLower (strTrim ((get_player_school pid st fetch).1,
    (get_player_school pid st fetch).2.1, false).1)) "duke" = false
  rw [show ((get_player_school pid st fetch).1, (get_player_school pid st fetch).2.1,
      false).1 = (get_player_school pid st fetch).1 from rfl, hempty]
  decide

/-- Witness for C9: a fresh cache, player 1 and an empty biography response
resolve the empty school, which is written to the returned cache. -/
theorem school_cache_spec_witness :
    cacheLookup (get_player_school 1 ⟨[], []⟩ (fun _ => none)).2.1.cache (toString (1 : Int))
      = some (get_player_school 1 ⟨[], []⟩ (fun _ => none)).1 :=
(school_cache_spec 1 ⟨[], []⟩ (fun _ => none) (fun _ => none) rfl).1

end DukeNba
